import Mathlib

/-!
Verification of the Lumigo Kubernetes operator core against its specification.

Part 1 models `splitContainerImageNameAndTag` (internal test-infrastructure
helper, translated verbatim from the Go source). Go strings are modelled as
`List Char`; the image references handled by this function are ASCII, and the
searched characters ':' and '/' are single-byte ASCII, for which Go's
byte-level `strings.LastIndex` coincides with the character-level last index.

Part 2 models the reconciler, token validator, condition manager, namespace
registry and injection engine. Their implementation is not part of the
provided sources (only the controller test suite is), so those definitions
are modelled from the specification, as indicated by their doc comments.
-/

namespace LumigoOperator

/-- Translation of Go `strings.LastIndex(s, c)` for a single character `c`:
the byte (= character, for ASCII needles) index of the last occurrence of
`c` in `s`, or `-1` if `c` does not occur. -/
def lastIndex : List Char → Char → Int
  | [], _ => -1
  | x :: xs, c =>
    let r := lastIndex xs c
    if 0 ≤ r then r + 1
    else if x = c then 0
    else -1

/-- Translation of `splitContainerImageNameAndTag` (Go):
```
lastColonIndex := strings.LastIndex(imageName, ":")
lastSlashIndex := strings.LastIndex(imageName, "/")
if lastColonIndex < 0 || lastSlashIndex > lastColonIndex {
    // No tag in the image: if there is a colon character, must be a port in the domain
    return imageName, ""
}
return imageName[:lastColonIndex], imageName[lastColonIndex+1:]
```
-/
def splitContainerImageNameAndTag (imageName : List Char) : List Char × List Char :=
  let lastColonIndex := lastIndex imageName ':'
  let lastSlashIndex := lastIndex imageName '/'
  if lastColonIndex < 0 ∨ lastSlashIndex > lastColonIndex then
    (imageName, [])
  else
    (imageName.take lastColonIndex.toNat, imageName.drop (lastColonIndex.toNat + 1))

/-!
Part 2: the reconciliation state machine and injection engine, modelled from
the specification (the controller implementation is not among the provided
sources; the controller test suite pins the exact user-facing messages).
-/

/-- Modelled from the spec: the fixed-size status record of a TracingResource
(§4.3, §9): a derived `active` boolean and an optional error message; the
`Active` and `Error` conditions are mutually exclusive by construction. -/
structure LumigoStatus where
  active : Bool
  error : Option String
deriving DecidableEq

/-- Modelled from the spec: `SetError(reason, message)` sets Error with the
given message and Active=False (§4.3). -/
def setError (msg : String) : LumigoStatus :=
  { active := false, error := some msg }

/-- Modelled from the spec: `SetActive()` sets Active=True and clears the
Error condition (§4.3). -/
def setActive : LumigoStatus :=
  { active := true, error := none }

/-- Modelled from the spec: a TracingResource instance as seen by the
NamespaceRegistry — its identity within the namespace and its creation
timestamp (§4.2). -/
structure LumigoInstance where
  name : String
  creationTimestamp : Nat
deriving DecidableEq

/-- Modelled from the spec: the NamespaceRegistry tie-break order — earlier
creation timestamp wins, ties broken by lexicographic name order (§4.2). -/
def instBefore (a b : LumigoInstance) : Bool :=
  a.creationTimestamp < b.creationTimestamp ||
    (a.creationTimestamp == b.creationTimestamp && decide (a.name < b.name))

/-- Modelled from the spec: `ResolveAuthoritative(namespace, candidates)` —
the minimum of the candidates under the deterministic total order
`instBefore` (§4.2); `none` only when there are no candidates. -/
def resolveAuthoritative : List LumigoInstance → Option LumigoInstance
  | [] => none
  | x :: xs => some (xs.foldl (fun best i => if instBefore i best then i else best) x)

/-- The exact conflict condition message (§6). -/
def conflictMsg : String := "other Lumigo instances in this namespace"

/-- Modelled from the spec: one reconcile pass over all instances of a
namespace (token already validated) — the authoritative instance is set
Active, every other instance receives the conflict Error condition
(§4.2, §4.6 step 2). -/
def reconcileNamespace (instances : List LumigoInstance) : List (LumigoInstance × LumigoStatus) :=
  instances.map fun inst =>
    if resolveAuthoritative instances = some inst then (inst, setActive)
    else (inst, setError conflictMsg)

/-- Modelled from the spec: `SecretReference` `{name, key}`, resolved in the
TracingResource's namespace (§3). -/
structure SecretRef where
  name : String
  key : String
deriving DecidableEq

/-- Modelled from the spec: a token must be `t_` followed by 21 alphanumeric
characters (§3, §4.1). -/
def isValidToken (t : String) : Bool :=
  match t.toList with
  | 't' :: '_' :: rest => rest.length == 21 && rest.all (fun c => c.isAlphanum)
  | _ => false

/-- The exact secret-not-found message (pinned by the controller test suite). -/
def cannotRetrieveMsg (ns name : String) : String :=
  "invalid Lumigo token secret reference: cannot retrieve secret '" ++ ns ++ "/" ++ name ++ "'"

/-- The exact key-missing message (pinned by the controller test suite). -/
def missingKeyMsg (ns name key : String) : String :=
  "invalid Lumigo token secret reference: the secret '" ++ ns ++ "/" ++ name ++
    "' does not have the key '" ++ key ++ "'"

/-- The exact malformed-token message (pinned by the controller test suite);
it names the expected shape: `t_` followed by 21 alphanumeric characters. -/
def malformedTokenMsg (key ns name : String) : String :=
  "invalid Lumigo token secret reference: the value of the field '" ++ key ++
    "' of the secret '" ++ ns ++ "/" ++ name ++
    "' does not match the expected structure of Lumigo tokens: " ++
    "it should be `t_` followed by of 21 alphanumeric characters; " ++
    "see https://docs.lumigo.io/docs/lumigo-tokens " ++
    "for instructions on how to retrieve your Lumigo token"

/-- Modelled from the spec: `TokenValidator.Validate(secretRef,
namespaceSecretLookup)` (§4.1) — fails if the secret cannot be retrieved,
if it lacks the configured key, or if the value is not a well-formed token;
otherwise returns the token. The secret store of the namespace is the
`lookup` function; a secret is its key/value association list. -/
def validate (ns : String) (ref : SecretRef)
    (lookup : String → Option (List (String × String))) : Except String String :=
  match lookup ref.name with
  | none => .error (cannotRetrieveMsg ns ref.name)
  | some data =>
    match data.lookup ref.key with
    | none => .error (missingKeyMsg ns ref.name ref.key)
    | some v => if isValidToken v then .ok v else .error (malformedTokenMsg ref.key ns ref.name)

/-- Modelled from the spec: the condition computed by one reconcile of a
single (authoritative) TracingResource — `SetError` with the validator's
message on failure, `SetActive` on success (§4.6 steps 3–4). -/
def conditionFor (ns : String) (ref : SecretRef)
    (lookup : String → Option (List (String × String))) : LumigoStatus :=
  match validate ns ref lookup with
  | .error msg => setError msg
  | .ok _ => setActive

/-- Modelled from the spec: an environment variable of a container. -/
structure EnvVar where
  name : String
  value : String
deriving DecidableEq

/-- Modelled from the spec: a container of a pod template. -/
structure Container where
  name : String
  image : String
  env : List EnvVar
deriving DecidableEq

/-- Modelled from the spec: a volume of a pod template. -/
structure Volume where
  name : String
deriving DecidableEq

/-- Modelled from the spec: the provenance marker stamped on every mutated
workload — `{operatorVersion, injectorImage, proxyEndpoint}` (§3). -/
structure Marker where
  operatorVersion : String
  injectorImage : String
  proxyEndpoint : String
deriving DecidableEq

/-- Modelled from the spec: a workload's pod template — init containers,
containers, volumes, and the optional provenance marker (§3, §9). -/
structure PodTemplate where
  initContainers : List Container
  containers : List Container
  volumes : List Volume
  marker : Option Marker
deriving DecidableEq

/-- Modelled from the spec: the desired instrumentation configuration from
which every InjectionPlan is recomputed (§3, §4.4). -/
structure InjectionConfig where
  operatorVersion : String
  injectorImage : String
  proxyEndpoint : String
  token : String
deriving DecidableEq

/-- Modelled from the spec: the reserved name prefix of everything the
operator injects (§4.4). -/
def reservedPfx : String := "lumigo-"

/-- A name starts with the reserved prefix (checked on the character lists). -/
def hasReservedPfx (s : String) : Bool :=
  reservedPfx.toList.isPrefixOf s.toList

/-- Modelled from the spec: the injector init container added by a plan. -/
def injectorContainer (cfg : InjectionConfig) : Container :=
  { name := "lumigo-injector", image := cfg.injectorImage, env := [] }

/-- Modelled from the spec: the telemetry sidecar container added by a plan. -/
def sidecarContainer (cfg : InjectionConfig) : Container :=
  { name := "lumigo-sidecar", image := cfg.injectorImage, env := [] }

/-- Modelled from the spec: the volume added by a plan. -/
def injectorVolume : Volume :=
  { name := "lumigo-injector" }

/-- Modelled from the spec: the names of the environment variables the
operator injects into every container. -/
def injectedEnvNames : List String :=
  ["LD_PRELOAD", "LUMIGO_TRACER_TOKEN", "LUMIGO_ENDPOINT"]

/-- Modelled from the spec: the environment variables injected into every
container of an instrumented pod template. -/
def injectedEnvVars (cfg : InjectionConfig) : List EnvVar :=
  [ { name := "LD_PRELOAD", value := "/opt/lumigo/injector.so" },
    { name := "LUMIGO_TRACER_TOKEN", value := cfg.token },
    { name := "LUMIGO_ENDPOINT", value := cfg.proxyEndpoint } ]

/-- Modelled from the spec: the provenance marker recorded for a config. -/
def markerFor (cfg : InjectionConfig) : Marker :=
  { operatorVersion := cfg.operatorVersion, injectorImage := cfg.injectorImage,
    proxyEndpoint := cfg.proxyEndpoint }

/-- Modelled from the spec: remove the injected environment variables from a
container (reverse mode works purely from the reserved names, §4.4). -/
def stripEnv (c : Container) : Container :=
  { c with env := c.env.filter (fun e => !(injectedEnvNames.contains e.name)) }

/-- Modelled from the spec: append the injected environment variables to a
container. -/
def addEnv (cfg : InjectionConfig) (c : Container) : Container :=
  { c with env := c.env ++ injectedEnvVars cfg }

/-- Modelled from the spec: `Revert` / removal planning — drop every
reserved-prefix-named init container and volume, strip the injected
environment variables from every container, and remove the provenance
marker, using only the naming convention and the marker (§4.4, §4.5). -/
def stripTemplate (t : PodTemplate) : PodTemplate :=
  { initContainers := t.initContainers.filter (fun c => !(hasReservedPfx c.name)),
    containers := (t.containers.filter (fun c => !(hasReservedPfx c.name))).map stripEnv,
    volumes := t.volumes.filter (fun v => !(hasReservedPfx v.name)),
    marker := none }

/-- Modelled from the spec: the "add" half of a plan — append the injector
init container, the sidecar container and the volume, extend every
container's environment, and stamp the provenance marker. -/
def addAll (t : PodTemplate) (cfg : InjectionConfig) : PodTemplate :=
  { initContainers := t.initContainers ++ [injectorContainer cfg],
    containers := t.containers.map (addEnv cfg) ++ [sidecarContainer cfg],
    volumes := t.volumes ++ [injectorVolume],
    marker := some (markerFor cfg) }

/-- Modelled from the spec: `Apply(workload, plan)` where the plan is the one
the InjectionPlanner recomputes for `cfg` — a remove-then-add in one pass
("replace"), which converges regardless of the workload's current
instrumentation state (§4.4, §4.5). -/
def applyInjection (t : PodTemplate) (cfg : InjectionConfig) : PodTemplate :=
  addAll (stripTemplate t) cfg

/-- Modelled from the spec: `Revert(workload)` (§4.5). -/
def revertInjection (t : PodTemplate) : PodTemplate :=
  stripTemplate t

/-- A container carries no reserved-prefix name and no injected
environment variable — i.e. it shows no trace of instrumentation. -/
def isCleanContainer (c : Container) : Bool :=
  !(hasReservedPfx c.name) && c.env.all (fun e => !(injectedEnvNames.contains e.name))

/-- A pod template shows no trace of instrumentation. -/
def isClean (t : PodTemplate) : Bool :=
  t.initContainers.all (fun c => !(hasReservedPfx c.name)) &&
  t.containers.all isCleanContainer &&
  t.volumes.all (fun v => !(hasReservedPfx v.name)) &&
  t.marker.isNone

/-- Modelled from the spec: the reconcile path on creation of a
TracingResource (§4.6 steps 3–5): validate the token; on failure set the
Error condition and leave workloads untouched; on success set Active and —
only when injection is enabled and `injectOnExistingResourcesOnCreation`
is set — instrument the namespace's pre-existing workloads. -/
def reconcileCreate (ns : String) (ref : SecretRef)
    (lookup : String → Option (List (String × String)))
    (injectionEnabled injectOnExisting : Bool) (cfg : InjectionConfig)
    (ws : List PodTemplate) : LumigoStatus × List PodTemplate :=
  match validate ns ref lookup with
  | .error msg => (setError msg, ws)
  | .ok _ =>
    (setActive,
     if injectionEnabled && injectOnExisting then ws.map (fun w => applyInjection w cfg) else ws)

/-- Modelled from the spec: the deletion path (§4.6 step 6): when
`removeOnDeletion` is set, revert every previously instrumented workload;
otherwise leave instrumentation in place permanently. -/
def handleDeletion (removeOnDeletion : Bool) (ws : List PodTemplate) : List PodTemplate :=
  if removeOnDeletion then ws.map revertInjection else ws

/-! ## Lemmas about `lastIndex` -/

theorem lastIndex_neg_iff (s : List Char) (c : Char) : lastIndex s c < 0 ↔ c ∉ s := by
  induction s with
  | nil => simp [lastIndex]
  | cons x xs ih =>
    simp only [lastIndex, List.mem_cons]
    by_cases h0 : 0 ≤ lastIndex xs c
    · have hc : c ∈ xs := by
        by_contra hc
        have := ih.mpr hc
        omega
      rw [if_pos h0]
      exact iff_of_false (by omega) (fun h2 => h2 (Or.inr hc))
    · by_cases hxc : x = c
      · rw [if_neg h0, if_pos hxc]
        exact iff_of_false (by omega) (fun h2 => h2 (Or.inl hxc.symm))
      · rw [if_neg h0, if_neg hxc]
        refine iff_of_true (by omega) ?_
        rintro (h1 | h2)
        · exact hxc h1.symm
        · exact (ih.mp (by omega)) h2

theorem lastIndex_lt_length (s : List Char) (c : Char) : lastIndex s c < s.length := by
  induction s with
  | nil => simp [lastIndex]
  | cons x xs ih =>
    simp only [lastIndex, List.length_cons]
    split
    · push_cast
      omega
    · split <;> (push_cast; omega)

theorem getElem?_lastIndex (s : List Char) (c : Char) (h : 0 ≤ lastIndex s c) :
    s[(lastIndex s c).toNat]? = some c := by
  induction s with
  | nil => simp [lastIndex] at h
  | cons x xs ih =>
    simp only [lastIndex] at h ⊢
    by_cases h0 : 0 ≤ lastIndex xs c
    · rw [if_pos h0]
      have ht : (lastIndex xs c + 1).toNat = (lastIndex xs c).toNat + 1 := by omega
      rw [ht, List.getElem?_cons_succ]
      exact ih h0
    · by_cases hxc : x = c
      · rw [if_neg h0, if_pos hxc]
        simp [hxc]
      · rw [if_neg h0, if_neg hxc] at h
        omega

theorem le_lastIndex_of_getElem? (s : List Char) (c : Char) (j : Nat)
    (hg : s[j]? = some c) : (j : Int) ≤ lastIndex s c := by
  induction s generalizing j with
  | nil => simp at hg
  | cons x xs ih =>
    cases j with
    | zero =>
      have hxc : x = c := by simpa using hg
      simp only [lastIndex, if_pos hxc]
      split <;> omega
    | succ j =>
      rw [List.getElem?_cons_succ] at hg
      have hj := ih j hg
      simp only [lastIndex]
      split
      · push_cast
        omega
      · omega

theorem lastIndex_le_of_not_after (s : List Char) (c : Char) (i : Nat)
    (hl : ∀ j : Nat, j < s.length → i < j → s[j]? ≠ some c) : lastIndex s c ≤ i := by
  by_contra h
  push_neg at h
  have h0 : 0 ≤ lastIndex s c := by omega
  have hg := getElem?_lastIndex s c h0
  have hlt := lastIndex_lt_length s c
  exact hl (lastIndex s c).toNat (by omega) (by omega) hg

/-! ## Claims about `splitContainerImageNameAndTag` -/

/-- C1: `splitContainerImageNameAndTag s` returns `(name, tag)` where `tag`
is the substring of `s` after the last colon — unless there is no colon at
all, or that last colon is followed by a path separator `/` (so it is a
registry port specifier), in which case the whole string is the name and the
tag is empty. -/
theorem c1_split_name_and_tag (s : List Char) :
    (':' ∉ s → splitContainerImageNameAndTag s = (s, [])) ∧
    (∀ i : Nat, s[i]? = some ':' →
      (∀ j : Nat, j < s.length → i < j → s[j]? ≠ some ':') →
      ((∃ j : Nat, i < j ∧ s[j]? = some '/') →
        splitContainerImageNameAndTag s = (s, [])) ∧
      ((∀ j : Nat, j < s.length → i < j → s[j]? ≠ some '/') →
        splitContainerImageNameAndTag s = (s.take i, s.drop (i + 1)))) := by
  constructor
  · intro h
    have hneg : lastIndex s ':' < 0 := (lastIndex_neg_iff s ':').mpr h
    simp only [splitContainerImageNameAndTag]
    rw [if_pos (Or.inl hneg)]
  · intro i hi hlast
    have hile : (i : Int) ≤ lastIndex s ':' := le_lastIndex_of_getElem? s ':' i hi
    have hlei : lastIndex s ':' ≤ i := lastIndex_le_of_not_after s ':' i hlast
    have hci : lastIndex s ':' = i := le_antisymm hlei hile
    constructor
    · rintro ⟨j, hij, hj⟩
      have hjle : (j : Int) ≤ lastIndex s '/' := le_lastIndex_of_getElem? s '/' j hj
      simp only [splitContainerImageNameAndTag]
      rw [if_pos (Or.inr (by rw [hci]; omega))]
    · intro hnoslash
      have hsle : lastIndex s '/' ≤ i := lastIndex_le_of_not_after s '/' i hnoslash
      simp only [splitContainerImageNameAndTag, hci]
      rw [if_neg (by push_neg; exact ⟨by omega, by omega⟩)]
      simp

/-- Witness for C1: a concrete tagged reference is split at the colon, and a
concrete reference whose colon is a registry port (followed by a '/') is
returned whole. -/
theorem c1_split_name_and_tag_witness :
    splitContainerImageNameAndTag ['r', ':', 't'] = (['r'], ['t']) ∧
    splitContainerImageNameAndTag ['a', ':', '5', '/', 'x'] = (['a', ':', '5', '/', 'x'], []) := by
  constructor
  · simpa using ((c1_split_name_and_tag ['r', ':', 't']).2 1 (by decide) (by decide)).2 (by decide)
  · exact ((c1_split_name_and_tag ['a', ':', '5', '/', 'x']).2 1 (by decide)
      (by decide)).1 ⟨3, by decide, by decide⟩

/-- C10 counterexample: on the input `":"` the function returns `([], [])`,
so the tag is empty but the name is not the whole input — the trailing colon
is dropped, refuting "if tag = \"\" then name = s". -/
theorem c10_counterexample :
    (splitContainerImageNameAndTag [':']).2 = [] ∧
    (splitContainerImageNameAndTag [':']).1 ≠ [':'] := by
  decide

/-- C10 (amended): the decomposition loses at most one trailing colon: for
every input `s`, either the function returns `(s, "")` unchanged, or
`name ++ ":" ++ tag = s` — in particular when `tag ≠ ""` the concatenation
law holds, but `tag = ""` only implies `name = s` or `name ++ ":" = s`. -/
theorem c10_amended_lossless (s : List Char) :
    splitContainerImageNameAndTag s = (s, []) ∨
    (splitContainerImageNameAndTag s).1 ++ ':' :: (splitContainerImageNameAndTag s).2 = s := by
  by_cases h : lastIndex s ':' < 0 ∨ lastIndex s '/' > lastIndex s ':'
  · left
    simp only [splitContainerImageNameAndTag]
    rw [if_pos h]
  · right
    simp only [splitContainerImageNameAndTag]
    rw [if_neg h]
    push_neg at h
    obtain ⟨h1, _⟩ := h
    have hg := getElem?_lastIndex s ':' h1
    have hlt := lastIndex_lt_length s ':'
    have hnl : (lastIndex s ':').toNat < s.length := by omega
    have hdrop : s.drop (lastIndex s ':').toNat =
        ':' :: s.drop ((lastIndex s ':').toNat + 1) := by
      rw [List.drop_eq_getElem_cons hnl]
      rw [List.getElem?_eq_getElem hnl] at hg
      rw [Option.some_inj.mp hg]
    calc (s.take (lastIndex s ':').toNat) ++ ':' :: s.drop ((lastIndex s ':').toNat + 1)
        = s.take (lastIndex s ':').toNat ++ s.drop (lastIndex s ':').toNat := by rw [hdrop]
      _ = s := List.take_append_drop _ s

/-! ## Lemmas about the namespace registry -/

theorem foldlMin_mem (x : LumigoInstance) (xs : List LumigoInstance) :
    xs.foldl (fun best i => if instBefore i best then i else best) x ∈ x :: xs := by
  induction xs generalizing x with
  | nil => simp
  | cons y ys ih =>
    simp only [List.foldl_cons]
    rcases List.mem_cons.mp (ih (if instBefore y x then y else x)) with h1 | h1
    · rw [h1]
      split
      · exact List.mem_cons_of_mem _ (List.mem_cons_self _ _)
      · exact List.mem_cons_self _ _
    · exact List.mem_cons_of_mem _ (List.mem_cons_of_mem _ h1)

theorem resolveAuthoritative_mem (l : List LumigoInstance) (m : LumigoInstance)
    (h : resolveAuthoritative l = some m) : m ∈ l := by
  cases l with
  | nil => simp [resolveAuthoritative] at h
  | cons x xs =>
    simp only [resolveAuthoritative, Option.some_inj] at h
    exact h ▸ foldlMin_mem x xs

theorem resolveAuthoritative_isSome (l : List LumigoInstance) (h : l ≠ []) :
    ∃ m, resolveAuthoritative l = some m := by
  cases l with
  | nil => exact absurd rfl h
  | cons x xs => exact ⟨_, rfl⟩

theorem countP_eq_one_of_nodup (l : List LumigoInstance) (m : LumigoInstance)
    (hm : m ∈ l) (hnd : l.Nodup) :
    l.countP (fun i => decide (m = i)) = 1 := by
  induction l with
  | nil => simp at hm
  | cons x xs ih =>
    rcases List.mem_cons.mp hm with rfl | hmem
    · rw [List.countP_cons_of_pos _ _ (by simp)]
      have hzero : xs.countP (fun i => decide (m = i)) = 0 := by
        rw [List.countP_eq_zero]
        intro a ha
        simp only [decide_eq_true_eq]
        intro he
        exact (List.nodup_cons.mp hnd).1 (he ▸ ha)
      omega
    · have hx : ¬(m = x) := fun he => (List.nodup_cons.mp hnd).1 (he ▸ hmem)
      rw [List.countP_cons_of_neg _ _ (by simpa)]
      exact ih hmem (List.nodup_cons.mp hnd).2

theorem reconcileNamespace_active_count (l : List LumigoInstance) (hne : l ≠ [])
    (hnd : (l.map LumigoInstance.name).Nodup) :
    (reconcileNamespace l).countP (fun p => p.2.active) = 1 := by
  obtain ⟨m, hm⟩ := resolveAuthoritative_isSome l hne
  have hmem := resolveAuthoritative_mem l m hm
  have hinst : l.Nodup := List.Nodup.of_map _ hnd
  unfold reconcileNamespace
  rw [List.countP_map]
  have hcongr : ∀ i ∈ l,
      (((fun p : LumigoInstance × LumigoStatus => p.2.active) ∘ fun inst =>
        if resolveAuthoritative l = some inst then (inst, setActive)
        else (inst, setError conflictMsg)) i ↔ (fun i => decide (m = i)) i) := by
    intro i _
    simp only [Function.comp]
    by_cases h : resolveAuthoritative l = some i
    · rw [if_pos h]
      have heq : m = i := by
        rw [hm] at h
        exact Option.some_inj.mp h
      simp [setActive, heq]
    · rw [if_neg h]
      have hne2 : ¬(m = i) := fun he => h (he ▸ hm)
      simp [setError, hne2]
  rw [List.countP_congr hcongr]
  exact countP_eq_one_of_nodup l m hmem hinst

/-- C2: for N TracingResource instances created in the same namespace (their
names pairwise distinct, as Kubernetes guarantees), exactly one is set
Active by the reconcile pass; every other instance carries the Error
condition with the exact message "other Lumigo instances in this namespace";
and once the authoritative instance is deleted, the reconcile pass over the
remaining instances again sets exactly one of them Active. -/
theorem c2_namespace_singleton (l : List LumigoInstance) (hne : l ≠ [])
    (hnd : (l.map LumigoInstance.name).Nodup) :
    ((reconcileNamespace l).countP (fun p => p.2.active) = 1) ∧
    (∀ p ∈ reconcileNamespace l, p.2.active = false →
      p.2.error = some "other Lumigo instances in this namespace") ∧
    (∀ a, resolveAuthoritative l = some a → l.erase a ≠ [] →
      (reconcileNamespace (l.erase a)).countP (fun p => p.2.active) = 1) := by
  refine ⟨reconcileNamespace_active_count l hne hnd, ?_, ?_⟩
  · intro p hp hfalse
    obtain ⟨i, _, hi⟩ := List.mem_map.mp hp
    by_cases h : resolveAuthoritative l = some i
    · rw [if_pos h] at hi
      rw [← hi] at hfalse
      simp [setActive] at hfalse
    · rw [if_neg h] at hi
      rw [← hi]
      rfl
  · intro a _ herase
    have hsub : List.Sublist ((l.erase a).map LumigoInstance.name)
        (l.map LumigoInstance.name) :=
      (List.erase_sublist a l).map _
    exact reconcileNamespace_active_count (l.erase a) herase (hnd.sublist hsub)

/-- Witness for C2: two concrete instances in one namespace — the older one
is Active, the newer one carries the conflict error, and after the active
one is removed the remaining one becomes Active. -/
theorem c2_namespace_singleton_witness :
    ([⟨"lumigo1", 0⟩, ⟨"lumigo2", 1⟩] : List LumigoInstance) ≠ [] ∧
    (([⟨"lumigo1", 0⟩, ⟨"lumigo2", 1⟩] : List LumigoInstance).map LumigoInstance.name).Nodup ∧
    (((reconcileNamespace [⟨"lumigo1", 0⟩, ⟨"lumigo2", 1⟩]).countP (fun p => p.2.active) = 1) ∧
     (∀ p ∈ reconcileNamespace [⟨"lumigo1", 0⟩, ⟨"lumigo2", 1⟩], p.2.active = false →
       p.2.error = some "other Lumigo instances in this namespace") ∧
     (∀ a, resolveAuthoritative [⟨"lumigo1", 0⟩, ⟨"lumigo2", 1⟩] = some a →
       ([⟨"lumigo1", 0⟩, ⟨"lumigo2", 1⟩] : List LumigoInstance).erase a ≠ [] →
       (reconcileNamespace (([⟨"lumigo1", 0⟩, ⟨"lumigo2", 1⟩] :
         List LumigoInstance).erase a)).countP (fun p => p.2.active) = 1)) :=
  ⟨by decide, by decide, c2_namespace_singleton _ (by decide) (by decide)⟩

/-! ## Claims about token validation -/

/-- C5: when the referenced secret `lumigo-credentials` cannot be retrieved
in namespace `ns`, the resource reaches the Error condition with exactly the
message `invalid Lumigo token secret reference: cannot retrieve secret
'ns/lumigo-credentials'` (namespace and name substituted); once the secret
exists with a valid token under the configured key, the resource becomes
Active. -/
theorem c5_secret_not_found (ns tok : String)
    (lookupMissing lookupFixed : String → Option (List (String × String)))
    (h1 : lookupMissing "lumigo-credentials" = none)
    (h2 : lookupFixed "lumigo-credentials" = some [("token", tok)])
    (h3 : isValidToken tok = true) :
    conditionFor ns ⟨"lumigo-credentials", "token"⟩ lookupMissing =
      setError (cannotRetrieveMsg ns "lumigo-credentials") ∧
    cannotRetrieveMsg "ns" "lumigo-credentials" =
      "invalid Lumigo token secret reference: cannot retrieve secret 'ns/lumigo-credentials'" ∧
    conditionFor ns ⟨"lumigo-credentials", "token"⟩ lookupFixed = setActive := by
  refine ⟨?_, by decide, ?_⟩
  · simp [conditionFor, validate, h1]
  · simp [conditionFor, validate, h2, List.lookup, h3]

/-- Witness for C5. -/
theorem c5_secret_not_found_witness :
    isValidToken "t_1234567890123456789AB" = true ∧
    (conditionFor "ns" ⟨"lumigo-credentials", "token"⟩ (fun _ => none) =
      setError (cannotRetrieveMsg "ns" "lumigo-credentials") ∧
    cannotRetrieveMsg "ns" "lumigo-credentials" =
      "invalid Lumigo token secret reference: cannot retrieve secret 'ns/lumigo-credentials'" ∧
    conditionFor "ns" ⟨"lumigo-credentials", "token"⟩
      (fun _ => some [("token", "t_1234567890123456789AB")]) = setActive) :=
  ⟨by decide,
   c5_secret_not_found "ns" "t_1234567890123456789AB"
     (fun _ => none) (fun _ => some [("token", "t_1234567890123456789AB")])
     rfl rfl (by decide)⟩

/-- C6: when the referenced secret exists but lacks the configured key, the
resource reaches the Error condition with exactly the message `invalid
Lumigo token secret reference: the secret 'ns/lumigo-credentials' does not
have the key 'token'` (namespace, secret name and key substituted); once the
secret holds a valid token under the correct key, the resource becomes
Active. -/
theorem c6_missing_key (ns tok : String)
    (lookupWrongKey lookupFixed : String → Option (List (String × String)))
    (h1 : lookupWrongKey "lumigo-credentials" = some [("NOTTOKEN", tok)])
    (h2 : lookupFixed "lumigo-credentials" = some [("token", tok)])
    (h3 : isValidToken tok = true) :
    conditionFor ns ⟨"lumigo-credentials", "token"⟩ lookupWrongKey =
      setError (missingKeyMsg ns "lumigo-credentials" "token") ∧
    missingKeyMsg "ns" "lumigo-credentials" "token" =
      "invalid Lumigo token secret reference: the secret 'ns/lumigo-credentials' does not have the key 'token'" ∧
    conditionFor ns ⟨"lumigo-credentials", "token"⟩ lookupFixed = setActive := by
  refine ⟨?_, by decide, ?_⟩
  · simp [conditionFor, validate, h1, List.lookup]
  · simp [conditionFor, validate, h2, List.lookup, h3]

/-- Witness for C6. -/
theorem c6_missing_key_witness :
    isValidToken "t_1234567890123456789AB" = true ∧
    (conditionFor "ns" ⟨"lumigo-credentials", "token"⟩
      (fun _ => some [("NOTTOKEN", "t_1234567890123456789AB")]) =
      setError (missingKeyMsg "ns" "lumigo-credentials" "token") ∧
    missingKeyMsg "ns" "lumigo-credentials" "token" =
      "invalid Lumigo token secret reference: the secret 'ns/lumigo-credentials' does not have the key 'token'" ∧
    conditionFor "ns" ⟨"lumigo-credentials", "token"⟩
      (fun _ => some [("token", "t_1234567890123456789AB")]) = setActive) :=
  ⟨by decide,
   c6_missing_key "ns" "t_1234567890123456789AB"
     (fun _ => some [("NOTTOKEN", "t_1234567890123456789AB")])
     (fun _ => some [("token", "t_1234567890123456789AB")])
     rfl rfl (by decide)⟩

set_option maxRecDepth 8000 in
/-- C7: when the secret value under the configured key is malformed (e.g.
"abcd", which is not `t_` followed by 21 alphanumeric characters), the
resource reaches the Error condition whose message names that exact expected
shape; once the value is corrected to the well-formed token
`t_1234567890123456789AB`, the resource becomes Active. -/
theorem c7_malformed_token (ns : String)
    (lookupBad lookupFixed : String → Option (List (String × String)))
    (h1 : lookupBad "lumigo-credentials" = some [("token", "abcd")])
    (h2 : lookupFixed "lumigo-credentials" = some [("token", "t_1234567890123456789AB")]) :
    isValidToken "abcd" = false ∧
    conditionFor ns ⟨"lumigo-credentials", "token"⟩ lookupBad =
      setError (malformedTokenMsg "token" ns "lumigo-credentials") ∧
    malformedTokenMsg "token" "ns" "lumigo-credentials" =
      "invalid Lumigo token secret reference: the value of the field 'token' of the secret 'ns/lumigo-credentials' does not match the expected structure of Lumigo tokens: it should be `t_` followed by of 21 alphanumeric characters; see https://docs.lumigo.io/docs/lumigo-tokens for instructions on how to retrieve your Lumigo token" ∧
    isValidToken "t_1234567890123456789AB" = true ∧
    conditionFor ns ⟨"lumigo-credentials", "token"⟩ lookupFixed = setActive := by
  refine ⟨by decide, ?_, by decide, by decide, ?_⟩
  · simp [conditionFor, validate, h1, List.lookup,
      show isValidToken "abcd" = false from by decide]
  · simp [conditionFor, validate, h2, List.lookup,
      show isValidToken "t_1234567890123456789AB" = true from by decide]

/-- Witness for C7. -/
theorem c7_malformed_token_witness :
    isValidToken "abcd" = false ∧
    conditionFor "ns" ⟨"lumigo-credentials", "token"⟩
      (fun _ => some [("token", "abcd")]) =
      setError (malformedTokenMsg "token" "ns" "lumigo-credentials") ∧
    malformedTokenMsg "token" "ns" "lumigo-credentials" =
      "invalid Lumigo token secret reference: the value of the field 'token' of the secret 'ns/lumigo-credentials' does not match the expected structure of Lumigo tokens: it should be `t_` followed by of 21 alphanumeric characters; see https://docs.lumigo.io/docs/lumigo-tokens for instructions on how to retrieve your Lumigo token" ∧
    isValidToken "t_1234567890123456789AB" = true ∧
    conditionFor "ns" ⟨"lumigo-credentials", "token"⟩
      (fun _ => some [("token", "t_1234567890123456789AB")]) = setActive :=
  c7_malformed_token "ns"
    (fun _ => some [("token", "abcd")])
    (fun _ => some [("token", "t_1234567890123456789AB")])
    rfl rfl

/-! ## Lemmas about the injection engine -/

theorem injectedEnvVars_filter_clean (cfg : InjectionConfig) :
    (injectedEnvVars cfg).filter (fun e => !(injectedEnvNames.contains e.name)) = [] := rfl

theorem stripEnv_addEnv (cfg : InjectionConfig) (c : Container) :
    stripEnv (addEnv cfg c) = stripEnv c := by
  simp only [stripEnv, addEnv, List.filter_append, injectedEnvVars_filter_clean,
    List.append_nil]

theorem stripEnv_idem (c : Container) : stripEnv (stripEnv c) = stripEnv c := by
  simp [stripEnv, List.filter_filter]

theorem filter_self_idem {α : Type} (p : α → Bool) (l : List α) :
    (l.filter p).filter p = l.filter p := by
  simp [List.filter_filter]

theorem stripTemplate_addAll (t : PodTemplate) (cfg : InjectionConfig) :
    stripTemplate (addAll t cfg) = stripTemplate t := by
  unfold stripTemplate addAll
  have hinit : (t.initContainers ++ [injectorContainer cfg]).filter
      (fun c => !(hasReservedPfx c.name)) =
      t.initContainers.filter (fun c => !(hasReservedPfx c.name)) := by
    rw [List.filter_append]
    have h1 : [injectorContainer cfg].filter (fun c => !(hasReservedPfx c.name)) = [] :=
      rfl
    rw [h1, List.append_nil]
  have hcont : ((t.containers.map (addEnv cfg) ++ [sidecarContainer cfg]).filter
      (fun c => !(hasReservedPfx c.name))).map stripEnv =
      ((t.containers.filter (fun c => !(hasReservedPfx c.name))).map stripEnv) := by
    rw [List.filter_append]
    have h1 : [sidecarContainer cfg].filter (fun c => !(hasReservedPfx c.name)) = [] :=
      rfl
    rw [h1, List.append_nil, List.filter_map, List.map_map]
    have h2 : ((fun c => !(hasReservedPfx c.name)) ∘ addEnv cfg) =
        (fun c : Container => !(hasReservedPfx c.name)) := rfl
    rw [h2]
    exact List.map_congr_left (fun c _ => stripEnv_addEnv cfg c)
  have hvol : (t.volumes ++ [injectorVolume]).filter
      (fun v => !(hasReservedPfx v.name)) =
      t.volumes.filter (fun v => !(hasReservedPfx v.name)) := by
    rw [List.filter_append]
    have h1 : [injectorVolume].filter (fun v => !(hasReservedPfx v.name)) = [] := rfl
    rw [h1, List.append_nil]
  rw [hinit, hcont, hvol]

theorem stripTemplate_idem (t : PodTemplate) :
    stripTemplate (stripTemplate t) = stripTemplate t := by
  unfold stripTemplate
  have hcont : ((((t.containers.filter (fun c => !(hasReservedPfx c.name))).map
      stripEnv).filter (fun c => !(hasReservedPfx c.name))).map stripEnv) =
      ((t.containers.filter (fun c => !(hasReservedPfx c.name))).map stripEnv) := by
    rw [List.filter_map]
    have h2 : ((fun c => !(hasReservedPfx c.name)) ∘ stripEnv) =
        (fun c : Container => !(hasReservedPfx c.name)) := rfl
    rw [h2, filter_self_idem, List.map_map]
    exact List.map_congr_left (fun c _ => stripEnv_idem c)
  rw [filter_self_idem, filter_self_idem, hcont]

theorem stripTemplate_of_clean (t : PodTemplate) (h : isClean t = true) :
    stripTemplate t = t := by
  unfold isClean at h
  simp only [Bool.and_eq_true] at h
  obtain ⟨⟨⟨h1, h2⟩, h3⟩, h4⟩ := h
  unfold stripTemplate
  have hinit : t.initContainers.filter (fun c => !(hasReservedPfx c.name)) =
      t.initContainers :=
    List.filter_eq_self.mpr (List.all_eq_true.mp h1)
  have hcontf : t.containers.filter (fun c => !(hasReservedPfx c.name)) =
      t.containers := by
    refine List.filter_eq_self.mpr (fun c hc => ?_)
    have hcc := List.all_eq_true.mp h2 c hc
    unfold isCleanContainer at hcc
    rw [Bool.and_eq_true] at hcc
    exact hcc.1
  have hcontm : t.containers.map stripEnv = t.containers := by
    have hpt : ∀ c ∈ t.containers, stripEnv c = id c := by
      intro c hc
      have hcc := List.all_eq_true.mp h2 c hc
      unfold isCleanContainer at hcc
      rw [Bool.and_eq_true] at hcc
      unfold stripEnv
      rw [List.filter_eq_self.mpr (List.all_eq_true.mp hcc.2)]
      rfl
    rw [List.map_congr_left hpt, List.map_id]
  have hvol : t.volumes.filter (fun v => !(hasReservedPfx v.name)) = t.volumes :=
    List.filter_eq_self.mpr (List.all_eq_true.mp h3)
  have hmark : t.marker = none := Option.isNone_iff_eq_none.mp h4
  rw [hinit, hcontf, hcontm, hvol, ← hmark]

theorem stripTemplate_applyInjection_of_clean (w : PodTemplate) (cfg : InjectionConfig)
    (h : isClean w = true) :
    stripTemplate (applyInjection w cfg) = w := by
  simp only [applyInjection]
  rw [stripTemplate_addAll, stripTemplate_idem, stripTemplate_of_clean w h]

/-! ## Claims about the injection engine and the reconcile paths -/

/-- C3: for every workload (showing no prior trace of instrumentation, which
is what `Apply` guarantees it never leaves behind) and every plan the
planner computes, `Revert(Apply(workload, plan))` restores the workload's
container list, volume list and environment variables exactly, and leaves
no injected containers, volumes or environment variables as residue. -/
theorem c3_revert_apply_roundtrip (w : PodTemplate) (cfg : InjectionConfig)
    (h : isClean w = true) :
    revertInjection (applyInjection w cfg) = w ∧
    isClean (revertInjection (applyInjection w cfg)) = true := by
  have hs : revertInjection (applyInjection w cfg) = w :=
    stripTemplate_applyInjection_of_clean w cfg h
  exact ⟨hs, by rw [hs]; exact h⟩

/-- Witness for C3: the round trip on a concrete one-container deployment. -/
theorem c3_revert_apply_roundtrip_witness :
    isClean ⟨[], [⟨"myapp", "busybox", [⟨"A", "b"⟩]⟩], [⟨"data"⟩], none⟩ = true ∧
    (revertInjection (applyInjection ⟨[], [⟨"myapp", "busybox", [⟨"A", "b"⟩]⟩], [⟨"data"⟩], none⟩
        ⟨"test", "img", "ep", "t_1234567890123456789AB"⟩) =
      ⟨[], [⟨"myapp", "busybox", [⟨"A", "b"⟩]⟩], [⟨"data"⟩], none⟩ ∧
     isClean (revertInjection (applyInjection
        ⟨[], [⟨"myapp", "busybox", [⟨"A", "b"⟩]⟩], [⟨"data"⟩], none⟩
        ⟨"test", "img", "ep", "t_1234567890123456789AB"⟩)) = true) :=
  ⟨by decide, c3_revert_apply_roundtrip _ _ (by decide)⟩

/-- C4: for every workload and every plan the planner computes, applying the
same plan twice yields the same result as applying it once — `Apply` is
idempotent, so repeated reconciles produce no duplicate containers or
volumes. -/
theorem c4_apply_idempotent (w : PodTemplate) (cfg : InjectionConfig) :
    applyInjection (applyInjection w cfg) cfg = applyInjection w cfg := by
  simp only [applyInjection]
  rw [stripTemplate_addAll, stripTemplate_idem]

/-- C8: when a TracingResource is created with
`injectOnExistingResourcesOnCreation = false`, the reconcile pass sets it
Active (given a valid token) and leaves every pre-existing workload of the
namespace exactly as it was, whatever the injection-enabled flag. -/
theorem c8_creation_optout_leaves_workloads (ns : String) (ref : SecretRef)
    (lookup : String → Option (List (String × String))) (tok : String)
    (enabled : Bool) (cfg : InjectionConfig) (ws : List PodTemplate)
    (hv : validate ns ref lookup = Except.ok tok) :
    reconcileCreate ns ref lookup enabled false cfg ws = (setActive, ws) := by
  simp [reconcileCreate, hv]

/-- Witness for C8: a concrete namespace with one deployment is untouched. -/
theorem c8_creation_optout_leaves_workloads_witness :
    validate "ns" ⟨"lumigo-credentials", "token"⟩
      (fun _ => some [("token", "t_1234567890123456789AB")]) =
      Except.ok "t_1234567890123456789AB" ∧
    reconcileCreate "ns" ⟨"lumigo-credentials", "token"⟩
      (fun _ => some [("token", "t_1234567890123456789AB")]) true false
      ⟨"test", "img", "ep", "t_1234567890123456789AB"⟩
      [⟨[], [⟨"myapp", "busybox", []⟩], [], none⟩] =
      (setActive, [⟨[], [⟨"myapp", "busybox", []⟩], [], none⟩]) :=
  ⟨rfl,
   c8_creation_optout_leaves_workloads "ns" ⟨"lumigo-credentials", "token"⟩
     (fun _ => some [("token", "t_1234567890123456789AB")]) "t_1234567890123456789AB"
     true ⟨"test", "img", "ep", "t_1234567890123456789AB"⟩
     [⟨[], [⟨"myapp", "busybox", []⟩], [], none⟩] rfl⟩

/-- C9: on deletion of a TracingResource, if `removeOnDeletion` is false the
instrumentation injected into the workloads persists unchanged; if
`removeOnDeletion` is true, an instrumented workload has every injected
container, volume and environment variable removed and its original pod
template (in particular its original container count) restored. -/
theorem c9_deletion_policy (ws : List PodTemplate) (w : PodTemplate)
    (cfg : InjectionConfig) (h : isClean w = true) :
    handleDeletion false ws = ws ∧
    handleDeletion true [applyInjection w cfg] = [w] := by
  constructor
  · simp [handleDeletion]
  · simp only [handleDeletion, if_pos, List.map_cons, List.map_nil, revertInjection]
    rw [stripTemplate_applyInjection_of_clean w cfg h]

/-- Witness for C9: a concrete instrumented deployment is restored exactly
when `removeOnDeletion` is true, and kept when it is false. -/
theorem c9_deletion_policy_witness :
    isClean ⟨[], [⟨"myapp", "busybox", []⟩], [], none⟩ = true ∧
    (handleDeletion false
        [applyInjection ⟨[], [⟨"myapp", "busybox", []⟩], [], none⟩
          ⟨"test", "img", "ep", "t_1234567890123456789AB"⟩] =
      [applyInjection ⟨[], [⟨"myapp", "busybox", []⟩], [], none⟩
          ⟨"test", "img", "ep", "t_1234567890123456789AB"⟩] ∧
     handleDeletion true
        [applyInjection ⟨[], [⟨"myapp", "busybox", []⟩], [], none⟩
          ⟨"test", "img", "ep", "t_1234567890123456789AB"⟩] =
      [⟨[], [⟨"myapp", "busybox", []⟩], [], none⟩]) :=
  ⟨by decide,
   c9_deletion_policy
     [applyInjection ⟨[], [⟨"myapp", "busybox", []⟩], [], none⟩
       ⟨"test", "img", "ep", "t_1234567890123456789AB"⟩]
     ⟨[], [⟨"myapp", "busybox", []⟩], [], none⟩
     ⟨"test", "img", "ep", "t_1234567890123456789AB"⟩ (by decide)⟩

end LumigoOperator
